import Mathlib

/-!
Shallow embedding of `src/app.py`, a command-line order-tracking utility.

Modelling conventions:
* Console input is a list of lines; each `input(...)` call consumes the head.
  Reading from an exhausted stream yields the empty line, which in every loop
  of the program selects the terminating branch.
* Console output is an explicit list of the strings passed to `print(...)`;
  `input` prompts (written without a trailing newline) are not recorded.
* The filesystem is a map from filename to the parsed JSON document it holds;
  `json.dump`/`json.load` are modelled as storing and retrieving the document
  tree (the text layer of the `json` library is treated as primitive).
* Python's arbitrary-precision `int` is `Int`; `int(s)` is `pyParseInt`.
-/

namespace OrderApp

/-- One line of console input: the head of the stream, or the empty line when
the stream is exhausted. -/
def readLine : List String → String × List String
  | [] => ("", [])
  | s :: rest => (s, rest)

/-- Model of Python `str.strip()` (no argument): drop whitespace from both
ends. -/
def pyStrip (s : String) : String :=
  String.mk
    (((s.toList.dropWhile Char.isWhitespace).reverse.dropWhile
        Char.isWhitespace).reverse)

/-- Model of Python `str.upper()` on the ASCII range. -/
def pyUpper (s : String) : String :=
  String.mk (s.toList.map Char.toUpper)

/-- Digit run of a Python integer literal after the first digit: digits with
single underscores allowed between digits (PEP 515), accumulating the value. -/
def pyDigits : List Char → Nat → Option Nat
  | [], acc => some acc
  | '_' :: c :: rest, acc =>
      if c.isDigit then pyDigits rest (acc * 10 + (c.toNat - 48)) else none
  | ['_'], _ => none
  | c :: rest, acc =>
      if c.isDigit then pyDigits rest (acc * 10 + (c.toNat - 48)) else none

/-- Unsigned part of Python `int()`: a nonempty digit string (with optional
underscore grouping), most significant digit first. -/
def pyNat : List Char → Option Nat
  | [] => none
  | c :: rest => if c.isDigit then pyDigits rest (c.toNat - 48) else none

/-- Model of Python `int(s)`: strip surrounding whitespace, optional sign,
then a digit string; `none` models `ValueError`. (Non-ASCII digit forms are
not modelled.) -/
def pyParseInt (s : String) : Option Int :=
  match (pyStrip s).toList with
  | '-' :: rest => (pyNat rest).map (fun n => -(n : Int))
  | '+' :: rest => (pyNat rest).map (fun n => (n : Int))
  | cs => (pyNat cs).map (fun n => (n : Int))

/-- An order item: `{"name": ..., "price": ..., "quantity": ...}`. -/
structure Item where
  name : String
  price : Int
  quantity : Int
deriving Repr, DecidableEq

/-- An order: `{"order_id": ..., "customer": ..., "items": [...]}`. -/
structure Order where
  order_id : String
  customer : String
  items : List Item
deriving Repr, DecidableEq

/-- `INPUT_FILE = "orders.json"` (app.py line 5). -/
def INPUT_FILE : String := "orders.json"

/-- `OUTPUT_FILE = "output_orders.json"` (app.py line 6). -/
def OUTPUT_FILE : String := "output_orders.json"

/-- JSON document tree, as produced by `json.load`. -/
inductive JsonVal where
  | str (s : String)
  | int (n : Int)
  | arr (xs : List JsonVal)
  | obj (fields : List (String × JsonVal))
deriving Repr

/-- A filesystem: which parsed JSON document each filename holds, if any. -/
def FS : Type := String → Option JsonVal

/-- JSON encoding of an item, with the key order `json.dump` emits. -/
def itemToJson (it : Item) : JsonVal :=
  .obj [("name", .str it.name), ("price", .int it.price),
        ("quantity", .int it.quantity)]

/-- JSON encoding of an order. -/
def orderToJson (o : Order) : JsonVal :=
  .obj [("order_id", .str o.order_id), ("customer", .str o.customer),
        ("items", .arr (o.items.map itemToJson))]

/-- JSON encoding of a whole order list, the document `save_orders` writes. -/
def ordersToJson (l : List Order) : JsonVal := .arr (l.map orderToJson)

/-- Reading an item back out of its JSON encoding (used to state that the
stored document determines every field of the item). -/
def jsonToItem : JsonVal → Option Item
  | .obj [("name", .str n), ("price", .int p), ("quantity", .int q)] =>
      some ⟨n, p, q⟩
  | _ => none

/-- Reading a list of items back out of JSON. -/
def jsonToItems : List JsonVal → Option (List Item)
  | [] => some []
  | v :: rest =>
      match jsonToItem v, jsonToItems rest with
      | some it, some its => some (it :: its)
      | _, _ => none

/-- Reading an order back out of its JSON encoding. -/
def jsonToOrder : JsonVal → Option Order
  | .obj [("order_id", .str i), ("customer", .str c), ("items", .arr xs)] =>
      (jsonToItems xs).map (fun its => ⟨i, c, its⟩)
  | _ => none

/-- Reading an order list back out of JSON. -/
def jsonToOrders : JsonVal → Option (List Order)
  | .arr vs => go vs
  | _ => none
where
  go : List JsonVal → Option (List Order)
    | [] => some []
    | v :: rest =>
        match jsonToOrder v, go rest with
        | some o, some os => some (o :: os)
        | _, _ => none

/-- `load_data` (app.py lines 8-14): return the file's JSON document, or an
empty list if the file does not exist. -/
def load_data (filename : String) (fs : FS) : JsonVal :=
  match fs filename with
  | none => .arr []
  | some v => v

/-- `save_orders` (app.py lines 16-19): overwrite the file with the JSON
serialization of the order list. -/
def save_orders (filename : String) (orders : List Order) (fs : FS) : FS :=
  fun f => if f = filename then some (ordersToJson orders) else fs f

/-- `calculate_order_total` (app.py lines 21-26): running sum of
`price * quantity` over the order's items. -/
def calculate_order_total (order : Order) : Int :=
  order.items.foldl (fun total item => total + item.price * item.quantity) 0

/-- Python `f"{n:,}"`: split a digit run (least significant first) into groups
of three. -/
def chunk3 : List Char → List (List Char)
  | [] => []
  | [a] => [[a]]
  | [a, b] => [[a, b]]
  | a :: b :: c :: rest => [a, b, c] :: chunk3 rest

/-- Python `f"{n:,}"`: decimal rendering with a comma every three digits. -/
def pyCommaFmt (n : Int) : String :=
  let grouped :=
    ((chunk3 (Nat.repr n.natAbs).toList.reverse).intersperse [',']).flatten.reverse
  (if n < 0 then "-" else "") ++ String.mk grouped

/-- A separator run of `n` copies of the character `c`, as used in the
report banners. -/
def repChar (c : Char) (n : Nat) : String := String.mk (List.replicate n c)

/-- The item row printed by `print_order_report` (app.py line 46). -/
def itemLine (it : Item) : String :=
  it.name ++ "\t" ++ toString it.price ++ "\t" ++ toString it.quantity ++
    "\t" ++ toString (it.price * it.quantity)

/-- The block of lines `print_order_report` prints for one order
(app.py lines 37-50); `idx` is the 1-based position used when not single. -/
def orderBlock (single : Bool) (idx : Nat) (o : Order) : List String :=
  (if single then [] else ["\n訂單 #" ++ toString idx]) ++
  ["訂單編號: " ++ o.order_id,
   "客戶姓名: " ++ o.customer,
   repChar '-' 50,
   "商品名稱\t單價\t數量\t小計",
   repChar '-' 50] ++
  o.items.map itemLine ++
  [repChar '-' 50,
   "訂單總額: " ++ pyCommaFmt (calculate_order_total o),
   repChar '=' 50]

/-- `print_order_report` (app.py lines 28-50) as the list of printed lines;
`orders` is the single order wrapped in a list when `single` is true. -/
def print_order_report (orders : List Order) (title : String)
    (single : Bool) : List String :=
  ("\n" ++ repChar '=' 20 ++ " " ++ title ++ " " ++ repChar '=' 20) ::
  (orders.enum.map (fun p => orderBlock single (p.1 + 1) p.2)).flatten

/-- Result of the item-entry loop inside `add_order`: the items collected, the
unread input lines, and the validation messages printed along the way. -/
structure ItemsResult where
  items : List Item
  rest : List String
  printed : List String
deriving Repr, DecidableEq

/-- Validation message for a non-integer price or quantity (app.py line 76). -/
def intErrLine : String := "=> 錯誤：價格或數量必須為整數，請重新輸入"

/-- Validation message for a negative price (app.py line 68). -/
def negPriceLine : String := "=> 錯誤：價格不能為負數，請重新輸入"

/-- Validation message for a non-positive quantity (app.py line 72). -/
def nonPosQtyLine : String := "=> 錯誤：數量必須為正整數，請重新輸入"

/-- The item-entry loop of `add_order` (app.py lines 61-77): read a name
(empty name ends the loop), then a price and a quantity, re-prompting on a
parse failure, a negative price, or a non-positive quantity. -/
def readItems : List String → ItemsResult
  | [] => ⟨[], [], []⟩
  | name :: rest =>
    if name = "" then ⟨[], rest, []⟩
    else
      match rest with
      | [] => ⟨[], [], [intErrLine]⟩
      | priceStr :: rest2 =>
        match pyParseInt priceStr with
        | none =>
          let r := readItems rest2
          ⟨r.items, r.rest, intErrLine :: r.printed⟩
        | some price =>
          if price < 0 then
            let r := readItems rest2
            ⟨r.items, r.rest, negPriceLine :: r.printed⟩
          else
            match rest2 with
            | [] => ⟨[], [], [intErrLine]⟩
            | qtyStr :: rest3 =>
              match pyParseInt qtyStr with
              | none =>
                let r := readItems rest3
                ⟨r.items, r.rest, intErrLine :: r.printed⟩
              | some q =>
                if q ≤ 0 then
                  let r := readItems rest3
                  ⟨r.items, r.rest, nonPosQtyLine :: r.printed⟩
                else
                  let r := readItems rest3
                  ⟨⟨name, price, q⟩ :: r.items, r.rest, r.printed⟩

/-- Result of `add_order`: the returned message, the order list after the
call, the unread input lines, and the lines printed during the call. -/
structure AddResult where
  msg : String
  orders : List Order
  rest : List String
  printed : List String
deriving Repr, DecidableEq

/-- `add_order` (app.py lines 52-83): read an order id (uppercased), reject a
duplicate id, read the customer name and the items, reject an empty item
list, otherwise append the new order. -/
def add_order (orders : List Order) (inputs : List String) : AddResult :=
  let (rawId, rest) := readLine inputs
  let order_id := pyUpper rawId
  if orders.any (fun o => o.order_id == order_id) then
    ⟨"=> 錯誤：訂單編號 " ++ order_id ++ " 已存在！", orders, rest, []⟩
  else
    let (customer, rest2) := readLine rest
    let r := readItems rest2
    if r.items = [] then
      ⟨"=> 至少需要一個訂單項目", orders, r.rest, r.printed⟩
    else
      ⟨"=> 訂單 " ++ order_id ++ " 已新增！",
       orders ++ [⟨order_id, customer, r.items⟩], r.rest, r.printed⟩

/-- Result of `process_order`: the returned message, the optionally removed
order, the pending list after the call, the unread input lines, and the lines
printed during the call. -/
structure ProcResult where
  msg : String
  completed : Option Order
  orders : List Order
  rest : List String
  printed : List String
deriving Repr, DecidableEq

/-- The pending-order listing `process_order` prints (app.py lines 90-93). -/
def pendingListing (orders : List Order) : List String :=
  ("\n" ++ repChar '=' 8 ++ " 待處理訂單列表 " ++ repChar '=' 8) ::
  orders.enum.map (fun p =>
    toString (p.1 + 1) ++ ". 訂單編號: " ++ p.2.order_id ++ " - 客戶: " ++
      p.2.customer) ++
  [repChar '=' 32]

/-- The invalid-selection message of `process_order` (app.py lines 105, 107). -/
def invalidNumberLine : String := "=> 錯誤：請輸入有效的數字"

/-- `process_order` (app.py lines 85-107): with no pending orders return a
no-orders message; otherwise list them, read a selection (empty cancels),
and on a valid 1-based index pop that order; anything else is an error. -/
def process_order (orders : List Order) (inputs : List String) : ProcResult :=
  if hne : orders = [] then ⟨"=> 目前沒有待處理訂單", none, orders, inputs, []⟩
  else
    let listing := pendingListing orders
    let (choice, rest) := readLine inputs
    if choice = "" then ⟨"=> 已取消出餐", none, orders, rest, listing⟩
    else
      match pyParseInt choice with
      | none => ⟨invalidNumberLine, none, orders, rest, listing⟩
      | some n =>
        let idx := n - 1
        if hlt : 0 ≤ idx ∧ idx < (orders.length : Int) then
          let completed := orders.get ⟨idx.toNat, by omega⟩
          ⟨"=> 訂單 " ++ completed.order_id ++ " 已出餐完成", some completed,
           orders.eraseIdx idx.toNat, rest, listing⟩
        else ⟨invalidNumberLine, none, orders, rest, listing⟩

/-- The in-memory state of `main`: the pending orders, the fulfilled orders,
and the filesystem the two saves write to. -/
structure AppState where
  orders : List Order
  outputOrders : List Order
  fs : FS

/-- The menu banner `main` prints each iteration (app.py lines 115-120). -/
def menuBanner : List String :=
  [("\n" ++ repChar '*' 15 ++ "選單" ++ repChar '*' 15),
   "1. 新增訂單",
   "2. 顯示訂單報表",
   "3. 出餐處理",
   "4. 離開",
   repChar '*' 34]

/-- The invalid-menu-option message (app.py line 145). -/
def invalidOptionLine : String := "=> 請輸入有效的選項（1-4）"

/-- The no-orders message of menu option 2 (app.py line 133). -/
def noOrdersLine : String := "=> 目前沒有訂單"

/-- Outcome of one iteration of the menu loop: the lines printed, the state
afterwards, and the unread input; `exit` when the iteration breaks out. -/
inductive MenuStep where
  | exit (printed : List String) (st : AppState) (rest : List String)
  | cont (printed : List String) (st : AppState) (rest : List String)

/-- Whether a menu-loop iteration broke out of the loop. -/
def MenuStep.isExit : MenuStep → Bool
  | .exit _ _ _ => true
  | .cont _ _ _ => false

/-- One iteration of the menu loop in `main` (app.py lines 114-145): print
the banner, read and strip a choice, and dispatch. -/
def mainStep (st : AppState) (inputs : List String) : MenuStep :=
  let (raw, rest) := readLine inputs
  let choice := pyStrip raw
  if choice = "" then .exit menuBanner st rest
  else if choice = "1" then
    let r := add_order st.orders rest
    .cont (menuBanner ++ r.printed ++ [r.msg])
      ⟨r.orders, st.outputOrders, save_orders INPUT_FILE r.orders st.fs⟩ r.rest
  else if choice = "2" then
    .cont (menuBanner ++
        (if st.orders = [] then [noOrdersLine]
         else print_order_report st.orders "訂單報表" false)) st rest
  else if choice = "3" then
    let r := process_order st.orders rest
    match r.completed with
    | some o =>
        .cont (menuBanner ++ r.printed ++ [r.msg] ++
            print_order_report [o] "出餐訂單" true)
          ⟨r.orders, st.outputOrders ++ [o],
           save_orders OUTPUT_FILE (st.outputOrders ++ [o])
             (save_orders INPUT_FILE r.orders st.fs)⟩ r.rest
    | none => .cont (menuBanner ++ r.printed ++ [r.msg])
        ⟨r.orders, st.outputOrders, st.fs⟩ r.rest
  else if choice = "4" then .exit menuBanner st rest
  else .cont (menuBanner ++ [invalidOptionLine]) st rest

/-- The item-entry loop never leaves more input unread than it was given. -/
theorem readItems_rest_le (l : List String) :
    (readItems l).rest.length ≤ l.length := by
  induction l using readItems.induct with
  | case1 => simp [readItems]
  | case2 rest => rw [readItems.eq_def]; simp
  | case3 s h => rw [readItems.eq_def]; simp [h]
  | case4 s h s1 rest hp ih =>
      rw [readItems.eq_def]; simp [h, hp]; omega
  | case5 s h s1 rest q hp hq ih =>
      rw [readItems.eq_def]; simp [h, hp, hq]; omega
  | case6 s h s1 q hp hq =>
      rw [readItems.eq_def]; simp [h, hp, hq]
  | case7 s h s1 q hp hq s2 rest hp2 ih =>
      rw [readItems.eq_def]; simp [h, hp, hq, hp2]; omega
  | case8 s h s1 q hp hq s2 rest q2 hp2 hq2 ih =>
      rw [readItems.eq_def]; simp [h, hp, hq, hp2, hq2]; omega
  | case9 s h s1 q hp hq s2 rest q2 hp2 hq2 ih =>
      rw [readItems.eq_def]; simp [h, hp, hq, hp2, hq2]; omega

/-- `add_order` never leaves more input unread than it was given. -/
theorem add_order_rest_le (orders : List Order) (l : List String) :
    (add_order orders l).rest.length ≤ l.length := by
  match l with
  | [] =>
      simp only [add_order, readLine, readItems]
      split <;> simp
  | [x] =>
      simp only [add_order, readLine, readItems]
      split
      · simp
      · split <;> simp
  | x :: y :: ys =>
      simp only [add_order, readLine]
      have h := readItems_rest_le ys
      split
      · simp
      · split <;> simp <;> omega

/-- `process_order` never leaves more input unread than it was given. -/
theorem process_order_rest_le (orders : List Order) (l : List String) :
    (process_order orders l).rest.length ≤ l.length := by
  rw [process_order]
  split
  · simp
  · match l with
    | [] =>
        simp only [readLine]
        split
        · simp
        · split
          · simp
          · split <;> simp
    | x :: xs =>
        simp only [readLine]
        split
        · simp
        · split
          · simp
          · split <;> simp

/-- A continuing menu iteration consumes at least the choice line. -/
theorem mainStep_cont_lt (st : AppState) (inputs : List String)
    (p : List String) (st' : AppState) (rest : List String)
    (h : mainStep st inputs = .cont p st' rest) :
    rest.length < inputs.length := by
  match inputs with
  | [] =>
      rw [mainStep] at h
      have e0 : pyStrip "" = "" := rfl
      simp [readLine, e0] at h
  | raw :: rest0 =>
      rw [mainStep] at h
      simp only [readLine] at h
      by_cases h0 : pyStrip raw = ""
      · simp [h0] at h
      · simp only [h0, if_false] at h
        by_cases h1 : pyStrip raw = "1"
        · simp only [h1, if_true] at h
          have := add_order_rest_le st.orders rest0
          cases h
          simpa using Nat.lt_succ_of_le this
        · simp only [h1, if_false] at h
          by_cases h2 : pyStrip raw = "2"
          · simp only [h2, if_true] at h
            cases h
            simp
          · simp only [h2, if_false] at h
            by_cases h3 : pyStrip raw = "3"
            · simp only [h3, if_true] at h
              have := process_order_rest_le st.orders rest0
              revert h
              split <;> intro h <;> cases h <;>
                simpa using Nat.lt_succ_of_le this
            · simp only [h3, if_false] at h
              by_cases h4 : pyStrip raw = "4"
              · simp [h4] at h
              · simp only [h4, if_false] at h
                cases h
                simp

/-- The menu loop of `main` (app.py lines 114-145): iterate `mainStep` until
an iteration exits; returns the final state and the unread input. -/
def mainLoop (inputs : List String) (st : AppState) : AppState × List String :=
  match h : mainStep st inputs with
  | .exit _ st' rest => (st', rest)
  | .cont _ st' rest => mainLoop rest st'
termination_by inputs.length
decreasing_by exact mainStep_cont_lt st inputs _ _ _ h

/-! ## General lemmas about the embedded operations -/

/-- Folding `+ f x` from an accumulator is the accumulator plus the sum. -/
theorem foldl_add_map_sum (f : Item → Int) (l : List Item) (a : Int) :
    l.foldl (fun t it => t + f it) a = a + (l.map f).sum := by
  induction l generalizing a with
  | nil => simp
  | cons x xs ih => simp [ih, add_assoc]

/-- Decoding inverts encoding for a single item. -/
theorem jsonToItem_itemToJson (it : Item) :
    jsonToItem (itemToJson it) = some it := rfl

/-- Decoding inverts encoding for an item list. -/
theorem jsonToItems_map_itemToJson (l : List Item) :
    jsonToItems (l.map itemToJson) = some l := by
  induction l with
  | nil => rfl
  | cons x xs ih => simp [jsonToItems, jsonToItem_itemToJson, ih]

/-- Decoding inverts encoding for a single order. -/
theorem jsonToOrder_orderToJson (o : Order) :
    jsonToOrder (orderToJson o) = some o := by
  simp [orderToJson, jsonToOrder, jsonToItems_map_itemToJson]

/-- Decoding inverts encoding for an order list. -/
theorem jsonToOrders_ordersToJson (l : List Order) :
    jsonToOrders (ordersToJson l) = some l := by
  rw [ordersToJson, jsonToOrders]
  induction l with
  | nil => rfl
  | cons o os ih => simp [jsonToOrders.go, jsonToOrder_orderToJson, ih]

/-- Parsing the empty line fails. -/
theorem pyParseInt_empty : pyParseInt "" = none := rfl

/-! ## Claim theorems -/

/-- C3: for every order, `calculate_order_total` equals the sum over its
items of price × quantity; in particular, for items
[(price 10, quantity 2), (price 5, quantity 3)] the total is 35. -/
theorem calculate_order_total_eq_sum :
    (∀ o : Order,
        calculate_order_total o =
          (o.items.map (fun it => it.price * it.quantity)).sum) ∧
    calculate_order_total
        ⟨"T1", "c", [⟨"a", 10, 2⟩, ⟨"b", 5, 3⟩]⟩ = 35 := by
  constructor
  · intro o
    rw [calculate_order_total, foldl_add_map_sum]
    simp
  · rfl

/-- C10: for every order whose items list is empty,
`calculate_order_total` is defined and returns 0. -/
theorem calculate_order_total_empty_items (o : Order) (h : o.items = []) :
    calculate_order_total o = 0 := by
  simp [calculate_order_total, h]

/-- Witness for C10 at a concrete item-less order. -/
theorem calculate_order_total_empty_items_witness :
    (⟨"X", "c", []⟩ : Order).items = [] ∧
    calculate_order_total ⟨"X", "c", []⟩ = 0 :=
  ⟨rfl, calculate_order_total_empty_items ⟨"X", "c", []⟩ rfl⟩

/-- C6: loading a file that does not exist yields the empty order list
rather than an error. -/
theorem load_data_missing_file (filename : String) (fs : FS)
    (h : fs filename = none) :
    load_data filename fs = ordersToJson [] := by
  simp [load_data, h, ordersToJson]

/-- Witness for C6 on an empty filesystem. -/
theorem load_data_missing_file_witness :
    ((fun _ => none) : FS) "orders.json" = none ∧
    load_data "orders.json" (fun _ => none) = ordersToJson [] :=
  ⟨rfl, load_data_missing_file "orders.json" (fun _ => none) rfl⟩

/-- C5: saving an order list and loading it back from the same file yields
the very document that encodes the list, and that document decodes to a
list equal to the original: same order, same fields, same nesting. -/
theorem save_load_roundtrip (filename : String) (orders : List Order)
    (fs : FS) :
    load_data filename (save_orders filename orders fs) =
      ordersToJson orders ∧
    jsonToOrders (ordersToJson orders) = some orders := by
  constructor
  · simp [load_data, save_orders]
  · exact jsonToOrders_ordersToJson orders

/-- C1: adding an order whose uppercased id is already among the pending
order ids is rejected with the duplicate-id message, as a returned value,
with the pending list unchanged and nothing printed. -/
theorem add_order_duplicate_rejected (orders : List Order) (rawId : String)
    (rest : List String)
    (h : pyUpper rawId ∈ orders.map Order.order_id) :
    add_order orders (rawId :: rest) =
      ⟨"=> 錯誤：訂單編號 " ++ pyUpper rawId ++ " 已存在！",
       orders, rest, []⟩ := by
  rw [add_order]
  simp only [readLine]
  have ha : orders.any (fun o => o.order_id == pyUpper rawId) = true := by
    rw [List.any_eq_true]
    rcases List.mem_map.mp h with ⟨o, ho, hid⟩
    exact ⟨o, ho, by simp [hid]⟩
  simp [ha]

/-- Witness for C1: id "a1" collides with the stored "A1". -/
theorem add_order_duplicate_rejected_witness :
    pyUpper "a1" ∈
      ([⟨"A1", "Alice", [⟨"Tea", 50, 2⟩]⟩] : List Order).map Order.order_id ∧
    add_order [⟨"A1", "Alice", [⟨"Tea", 50, 2⟩]⟩] ["a1"] =
      ⟨"=> 錯誤：訂單編號 " ++ pyUpper "a1" ++ " 已存在！",
       [⟨"A1", "Alice", [⟨"Tea", 50, 2⟩]⟩], [], []⟩ :=
  ⟨by decide,
   add_order_duplicate_rejected [⟨"A1", "Alice", [⟨"Tea", 50, 2⟩]⟩]
     "a1" [] (by decide)⟩

/-- C4: any fulfillment attempt that does not select a valid order — empty
pending list, empty (cancel) input, unparsable input, or an out-of-range
number — returns one of the no-orders / cancel / error messages, carries no
order payload, and leaves the pending list unchanged. -/
theorem process_order_no_selection (orders : List Order) (choice : String)
    (rest : List String)
    (h : orders = [] ∨ choice = "" ∨ pyParseInt choice = none ∨
         ∃ n : Int, pyParseInt choice = some n ∧
           (n < 1 ∨ (orders.length : Int) < n)) :
    (process_order orders (choice :: rest)).completed = none ∧
    (process_order orders (choice :: rest)).orders = orders ∧
    ((process_order orders (choice :: rest)).msg = "=> 目前沒有待處理訂單" ∨
     (process_order orders (choice :: rest)).msg = "=> 已取消出餐" ∨
     (process_order orders (choice :: rest)).msg = invalidNumberLine) := by
  by_cases ho : orders = []
  · simp [process_order, ho]
  · by_cases hc : choice = ""
    · simp [process_order, ho, hc, readLine]
    · cases hp : pyParseInt choice with
      | none => simp [process_order, ho, hc, hp, readLine]
      | some n =>
          have hn : n < 1 ∨ (orders.length : Int) < n := by
            rcases h with h | h | h | ⟨m, hm, hmn⟩
            · exact absurd h ho
            · exact absurd h hc
            · rw [hp] at h; cases h
            · rw [hp] at hm; injection hm with e; subst e; exact hmn
          have hg : ¬(1 ≤ n ∧ n - 1 < (orders.length : Int)) := by omega
          simp [process_order, ho, hc, hp, readLine, hg]

/-- Witness for C4: fulfilling from an empty pending list. -/
theorem process_order_no_selection_witness :
    (([] : List Order) = [] ∨ ("9" : String) = "" ∨ pyParseInt "9" = none ∨
      ∃ n : Int, pyParseInt "9" = some n ∧
        (n < 1 ∨ (([] : List Order).length : Int) < n)) ∧
    ((process_order [] ["9"]).completed = none ∧
     (process_order [] ["9"]).orders = [] ∧
     ((process_order [] ["9"]).msg = "=> 目前沒有待處理訂單" ∨
      (process_order [] ["9"]).msg = "=> 已取消出餐" ∨
      (process_order [] ["9"]).msg = invalidNumberLine)) :=
  ⟨Or.inl rfl, process_order_no_selection [] "9" [] (Or.inl rfl)⟩

/-- C9: a selection parsing to an integer ≤ 0 is caught by the range guard:
`process_order` returns the invalid-number message, removes nothing, and no
negative index ever reaches the removal step. -/
theorem process_order_nonpositive_selection (orders : List Order)
    (choice : String) (rest : List String) (n : Int)
    (ho : orders ≠ []) (hp : pyParseInt choice = some n) (hn : n ≤ 0) :
    process_order orders (choice :: rest) =
      ⟨invalidNumberLine, none, orders, rest, pendingListing orders⟩ := by
  have hc : choice ≠ "" := by
    intro e; rw [e, pyParseInt_empty] at hp; cases hp
  have hg : ¬(1 ≤ n ∧ n - 1 < (orders.length : Int)) := by omega
  rw [process_order]
  simp [ho, hc, hp, hg, readLine]

/-- Witness for C9: selection "-1" against a one-order pending list. -/
theorem process_order_nonpositive_selection_witness :
    ([⟨"A1", "Alice", [⟨"Tea", 50, 2⟩]⟩] : List Order) ≠ [] ∧
    pyParseInt "-1" = some (-1) ∧ (-1 : Int) ≤ 0 ∧
    process_order [⟨"A1", "Alice", [⟨"Tea", 50, 2⟩]⟩] ["-1"] =
      ⟨invalidNumberLine, none, [⟨"A1", "Alice", [⟨"Tea", 50, 2⟩]⟩], [],
       pendingListing [⟨"A1", "Alice", [⟨"Tea", 50, 2⟩]⟩]⟩ :=
  ⟨by decide, by decide, by decide,
   process_order_nonpositive_selection _ "-1" [] (-1) (by decide) (by decide)
     (by decide)⟩

/-- After `add_order`, the pending list is unchanged or extended by one new
order whose id tested as not already present. -/
theorem add_order_orders_shape (orders : List Order) (inputs : List String) :
    (add_order orders inputs).orders = orders ∨
    ∃ id customer items,
      orders.any (fun o => o.order_id == id) = false ∧
      (add_order orders inputs).orders =
        orders ++ [⟨id, customer, items⟩] := by
  rw [add_order]
  rcases hr : readLine inputs with ⟨rawId, rest⟩
  rcases hr2 : readLine rest with ⟨customer, rest2⟩
  by_cases hd : orders.any (fun o => o.order_id == pyUpper rawId) = true
  · simp [hr, hr2, hd]
  · rw [Bool.not_eq_true] at hd
    by_cases hi : (readItems rest2).items = []
    · simp [hr, hr2, hd, hi]
    · right
      exact ⟨pyUpper rawId, customer, (readItems rest2).items, hd,
        by simp [hr, hr2, hd, hi]⟩

/-- After `process_order`, the pending list is unchanged or has exactly one
position removed. -/
theorem process_order_orders_shape (orders : List Order)
    (inputs : List String) :
    (process_order orders inputs).orders = orders ∨
    ∃ i, (process_order orders inputs).orders = orders.eraseIdx i := by
  rw [process_order]
  split
  · left; rfl
  · rcases hr : readLine inputs with ⟨choice, rest⟩
    simp only [hr]
    split
    · left; rfl
    · split
      · left; rfl
      · split
        · right; exact ⟨_, rfl⟩
        · left; rfl

/-- C7: pairwise distinctness of pending order ids is preserved by any
`add_order` call (which refuses a present id) and any `process_order` call
(which only removes). -/
theorem pending_ids_nodup_invariant (orders : List Order)
    (inputs inputs' : List String)
    (h : (orders.map Order.order_id).Nodup) :
    ((add_order orders inputs).orders.map Order.order_id).Nodup ∧
    ((process_order orders inputs').orders.map Order.order_id).Nodup := by
  constructor
  · rcases add_order_orders_shape orders inputs with he | ⟨id, c, its, hany, he⟩
    · rwa [he]
    · rw [he]
      have hid : id ∉ orders.map Order.order_id := by
        intro hm
        rcases List.mem_map.mp hm with ⟨o, ho, e⟩
        have := (List.any_eq_false.mp hany) o ho
        simp [e] at this
      simp [List.nodup_append, h, hid, List.disjoint_singleton]
  · rcases process_order_orders_shape orders inputs' with he | ⟨i, he⟩
    · rwa [he]
    · rw [he]
      exact h.sublist ((List.eraseIdx_sublist orders i).map Order.order_id)

/-- Witness for C7 on a two-order pending list with distinct ids. -/
theorem pending_ids_nodup_invariant_witness :
    (([⟨"A1", "a", [⟨"t", 1, 1⟩]⟩, ⟨"B2", "b", [⟨"u", 2, 1⟩]⟩] :
        List Order).map Order.order_id).Nodup ∧
    (((add_order [⟨"A1", "a", [⟨"t", 1, 1⟩]⟩, ⟨"B2", "b", [⟨"u", 2, 1⟩]⟩]
        ["a1", "c", "x", "3", "2", ""]).orders.map Order.order_id).Nodup ∧
     ((process_order [⟨"A1", "a", [⟨"t", 1, 1⟩]⟩, ⟨"B2", "b", [⟨"u", 2, 1⟩]⟩]
        ["2"]).orders.map Order.order_id).Nodup) :=
  ⟨by decide,
   pending_ids_nodup_invariant _ ["a1", "c", "x", "3", "2", ""] ["2"]
     (by decide)⟩

/-- C2: a valid 1-based selection `k + 1` makes `process_order` remove
exactly the selected order — the remaining orders are the ones before it
followed by the ones after it, in their original relative order — and return
it with the success message; and on menu choice "3" the loop appends that
order to the fulfilled list and saves both files. -/
theorem fulfill_valid_selection (orders outF : List Order) (fs0 : FS)
    (choice : String) (rest : List String) (k : Nat)
    (hp : pyParseInt choice = some ((k : Int) + 1)) (hk : k < orders.length) :
    process_order orders (choice :: rest) =
      ⟨"=> 訂單 " ++ (orders.get ⟨k, hk⟩).order_id ++ " 已出餐完成",
       some (orders.get ⟨k, hk⟩),
       orders.take k ++ orders.drop (k + 1), rest, pendingListing orders⟩ ∧
    mainStep ⟨orders, outF, fs0⟩ ("3" :: choice :: rest) =
      .cont (menuBanner ++ pendingListing orders ++
          ("=> 訂單 " ++ (orders.get ⟨k, hk⟩).order_id ++ " 已出餐完成") ::
            print_order_report [orders.get ⟨k, hk⟩] "出餐訂單" true)
        ⟨orders.take k ++ orders.drop (k + 1),
         outF ++ [orders.get ⟨k, hk⟩],
         save_orders OUTPUT_FILE (outF ++ [orders.get ⟨k, hk⟩])
           (save_orders INPUT_FILE (orders.take k ++ orders.drop (k + 1))
             fs0)⟩
        rest := by
  have ho : orders ≠ [] := by
    intro e; rw [e] at hk; exact absurd hk (by simp)
  have hc : choice ≠ "" := by
    intro e; rw [e, pyParseInt_empty] at hp; cases hp
  have hg : 0 ≤ ((k : Int) + 1) - 1 ∧
      ((k : Int) + 1) - 1 < (orders.length : Int) := by
    constructor <;> omega
  have ht : (((k : Int) + 1) - 1).toNat = k := by omega
  have hfirst : process_order orders (choice :: rest) =
      ⟨"=> 訂單 " ++ (orders.get ⟨k, hk⟩).order_id ++ " 已出餐完成",
       some (orders.get ⟨k, hk⟩),
       orders.take k ++ orders.drop (k + 1), rest, pendingListing orders⟩ := by
    rw [process_order]
    simp only [readLine, ho, dite_false, hc, if_false, hp, dif_pos hg, ht]
    simp [ho, hc, hp, ht, List.eraseIdx_eq_take_drop_succ,
      List.get_eq_getElem]
  refine ⟨hfirst, ?_⟩
  rw [mainStep]
  have e3 : pyStrip "3" = "3" := rfl
  have d0 : ("3" : String) ≠ "" := by decide
  have d1 : ("3" : String) ≠ "1" := by decide
  have d2 : ("3" : String) ≠ "2" := by decide
  simp only [readLine, e3, d0, if_false, d1, d2, if_true]
  rw [hfirst]
  simp

/-- Witness for C2: fulfilling index 1 of a 3-order pending list. -/
theorem fulfill_valid_selection_witness :
    pyParseInt "1" = some (((0 : Nat) : Int) + 1) ∧
    process_order
        [⟨"A1", "a", [⟨"t", 1, 1⟩]⟩, ⟨"B2", "b", [⟨"u", 2, 1⟩]⟩,
         ⟨"C3", "c", [⟨"v", 3, 1⟩]⟩] ["1"] =
      ⟨"=> 訂單 " ++
          (([⟨"A1", "a", [⟨"t", 1, 1⟩]⟩, ⟨"B2", "b", [⟨"u", 2, 1⟩]⟩,
             ⟨"C3", "c", [⟨"v", 3, 1⟩]⟩] : List Order).get
            ⟨0, by decide⟩).order_id ++ " 已出餐完成",
       some (([⟨"A1", "a", [⟨"t", 1, 1⟩]⟩, ⟨"B2", "b", [⟨"u", 2, 1⟩]⟩,
               ⟨"C3", "c", [⟨"v", 3, 1⟩]⟩] : List Order).get ⟨0, by decide⟩),
       ([⟨"A1", "a", [⟨"t", 1, 1⟩]⟩, ⟨"B2", "b", [⟨"u", 2, 1⟩]⟩,
         ⟨"C3", "c", [⟨"v", 3, 1⟩]⟩] : List Order).take 0 ++
         ([⟨"A1", "a", [⟨"t", 1, 1⟩]⟩, ⟨"B2", "b", [⟨"u", 2, 1⟩]⟩,
           ⟨"C3", "c", [⟨"v", 3, 1⟩]⟩] : List Order).drop 1, [],
       pendingListing
         [⟨"A1", "a", [⟨"t", 1, 1⟩]⟩, ⟨"B2", "b", [⟨"u", 2, 1⟩]⟩,
          ⟨"C3", "c", [⟨"v", 3, 1⟩]⟩]⟩ :=
  ⟨by decide,
   (fulfill_valid_selection
      [⟨"A1", "a", [⟨"t", 1, 1⟩]⟩, ⟨"B2", "b", [⟨"u", 2, 1⟩]⟩,
       ⟨"C3", "c", [⟨"v", 3, 1⟩]⟩] [] (fun _ => none) "1" [] 0 (by decide)
      (by decide)).1⟩

/-- C8: the menu loop exits exactly on (stripped) choice "" or "4"; any
choice outside "", "1", "2", "3", "4" prints the invalid-option message and
leaves the state and remaining input for the next menu iteration; exhausted
input reads as the empty choice and exits; and `mainLoop` returns exactly
when `mainStep` signals exit, so the loop terminates only via that
transition. -/
theorem menu_loop_transitions (raw : String) (rest : List String)
    (st : AppState) (inputs : List String) :
    ((mainStep st (raw :: rest)).isExit = true ↔
      (pyStrip raw = "" ∨ pyStrip raw = "4")) ∧
    (pyStrip raw ∉ (["", "1", "2", "3", "4"] : List String) →
      mainStep st (raw :: rest) =
        .cont (menuBanner ++ [invalidOptionLine]) st rest) ∧
    mainStep st [] = .exit menuBanner st [] ∧
    ((∃ p st' r, mainStep st inputs = .exit p st' r ∧
        mainLoop inputs st = (st', r)) ∨
     (∃ p st' r, mainStep st inputs = .cont p st' r ∧
        mainLoop inputs st = mainLoop r st')) := by
  refine ⟨?_, ?_, ?_, ?_⟩
  · rw [mainStep]
    simp only [readLine]
    by_cases h0 : pyStrip raw = ""
    · simp [h0, MenuStep.isExit]
    · rw [if_neg h0]
      by_cases h4 : pyStrip raw = "4"
      · have h1 : pyStrip raw ≠ "1" := by rw [h4]; decide
        have h2 : pyStrip raw ≠ "2" := by rw [h4]; decide
        have h3 : pyStrip raw ≠ "3" := by rw [h4]; decide
        rw [if_neg h1, if_neg h2, if_neg h3, if_pos h4]
        simp [MenuStep.isExit, h4]
      · by_cases h1 : pyStrip raw = "1"
        · rw [if_pos h1]; simp [MenuStep.isExit, h0, h4]
        · rw [if_neg h1]
          by_cases h2 : pyStrip raw = "2"
          · rw [if_pos h2]; simp [MenuStep.isExit, h0, h4]
          · rw [if_neg h2]
            by_cases h3 : pyStrip raw = "3"
            · rw [if_pos h3]
              cases hco : (process_order st.orders rest).completed <;>
                simp [hco, MenuStep.isExit, h0, h4]
            · rw [if_neg h3, if_neg h4]
              simp [MenuStep.isExit, h0, h4]
  · intro hnot
    simp only [List.mem_cons, List.mem_singleton] at hnot
    push_neg at hnot
    obtain ⟨h0, h1, h2, h3, h4⟩ := hnot
    rw [mainStep]
    simp [readLine, h0, h1, h2, h3, h4]
  · rw [mainStep]
    have e0 : pyStrip "" = "" := rfl
    simp [readLine, e0]
  · rcases hms : mainStep st inputs with ⟨p, st', r⟩ | ⟨p, st', r⟩
    · refine Or.inl ⟨p, st', r, rfl, ?_⟩
      rw [mainLoop]
      split <;> simp_all
    · refine Or.inr ⟨p, st', r, rfl, ?_⟩
      rw [mainLoop]
      split <;> simp_all

/-- Witness for C8: the unrecognized choice "9" on a concrete state. -/
theorem menu_loop_transitions_witness :
    pyStrip "9" ∉ (["", "1", "2", "3", "4"] : List String) ∧
    mainStep ⟨[], [], fun _ => none⟩ ["9"] =
      .cont (menuBanner ++ [invalidOptionLine]) ⟨[], [], fun _ => none⟩ [] :=
  ⟨by decide,
   (menu_loop_transitions "9" [] ⟨[], [], fun _ => none⟩ []).2.1 (by decide)⟩

end OrderApp
